import Mathlib

/-!
Shallow embedding of the resumable-upload coordination layer of
`react-native-tus`: the persistent upload store (`uploadStore.ts`, and the
persist variant in `Tus.nitro.ts`, whose `updateUpload` merge logic is
identical), the `TusUpload` session class, the
`BackgroundUploadManager.resumePendingUploads` bulk-resume loop, and the
native `getProgress` computation (identical on the Kotlin and Swift sides).

Conventions of the embedding:
- The JS `Record<string, UploadMetadata>` is an association list with the
  record id as key; reachable stores have unique keys.
- JS `number` byte counts become `Nat`; the native `Double` percentage
  arithmetic becomes exact rational arithmetic over `ℚ`.
- The transport collaborator (native `TusUpload` hybrid object) is a
  parameter: each transport-invoking operation takes the outcome the
  transport would produce (handle created or creation threw, native
  start/resume resolved or rejected, the url the transport reports at
  success time).
- Event-handler fan-out is modelled as an emitted event trace: one
  `Event.error` element per `handleError` invocation, i.e. one delivery
  round to the registered error handlers.
- Fallible operations return `Except`; a thrown/rejected JS error is the
  `.error` case.
-/

namespace Tus

/-- `UploadMetadata.status` from `types.ts`. -/
inductive Status where
  | pending
  | uploading
  | paused
  | completed
  | failed
deriving DecidableEq, Repr

/-- The serializable subset of `TusUploadOptions` that reaches the store
(endpoint plus optional metadata/headers/chunkSize; the remaining boolean
flags play no role in any claim and are not inspected by the session). -/
structure TusOptions where
  endpoint : String
  metadata : Option (List (String × String)) := none
  headers : Option (List (String × String)) := none
  chunkSize : Option Nat := none
deriving DecidableEq, Repr

/-- The durable record of one upload (`UploadMetadata` in `types.ts`). -/
structure UploadMetadata where
  id : String
  fileUri : String
  url : Option String
  uploadSize : Nat
  offset : Nat
  metadata : List (String × String)
  options : TusOptions
  status : Status
  createdAt : Nat
  updatedAt : Nat
deriving DecidableEq, Repr

/-- `Partial<UploadMetadata>`: a field is `some v` exactly when the
corresponding key is present in the partial object. -/
structure MetadataUpdates where
  id : Option String := none
  fileUri : Option String := none
  url : Option (Option String) := none
  uploadSize : Option Nat := none
  offset : Option Nat := none
  metadata : Option (List (String × String)) := none
  options : Option TusOptions := none
  status : Option Status := none
  createdAt : Option Nat := none
  updatedAt : Option Nat := none
deriving DecidableEq, Repr

/-- The JS object spread `{...existing, ...updates, updatedAt: Date.now()}`
from `updateUpload`: each present key of `updates` overrides `existing`,
and `updatedAt` is set last, to the current time, overriding even an
`updatedAt` key inside `updates`. -/
def applyUpdates (existing : UploadMetadata) (u : MetadataUpdates) (now : Nat) :
    UploadMetadata :=
  { id := u.id.getD existing.id
    fileUri := u.fileUri.getD existing.fileUri
    url := u.url.getD existing.url
    uploadSize := u.uploadSize.getD existing.uploadSize
    offset := u.offset.getD existing.offset
    metadata := u.metadata.getD existing.metadata
    options := u.options.getD existing.options
    status := u.status.getD existing.status
    createdAt := u.createdAt.getD existing.createdAt
    updatedAt := now }

/-- The `uploads` mapping of the store: a JS `Record<string, UploadMetadata>`
as an association list keyed by upload id. -/
abbrev Store := List (String × UploadMetadata)

namespace UploadStore

/-- `state.uploads[id]` — lookup by key. -/
def getUpload (s : Store) (id : String) : Option UploadMetadata :=
  (List.find? (fun p => p.1 == id) s).map Prod.snd

/-- Replace the value stored under `id` (the JS computed-key spread
`{...state.uploads, [id]: v}` when `id` is already a key). -/
def replaceEntry (s : Store) (id : String) (v : UploadMetadata) : Store :=
  s.map (fun p => if p.1 == id then (id, v) else p)

/-- `addUpload(id, metadata)`: `{...state.uploads, [id]: metadata}` — an
existing key is silently overwritten in place, a new key is appended. -/
def addUpload (s : Store) (id : String) (m : UploadMetadata) : Store :=
  if s.any (fun p => p.1 == id) then replaceEntry s id m else s ++ [(id, m)]

/-- `updateUpload(id, updates)` from `uploadStore.ts` lines 64-83 (the
persist variant in `Tus.nitro.ts` lines 381-399 performs the same merge):
if `id` is absent the state is returned unchanged, otherwise the record is
replaced by the merge `applyUpdates`. -/
def updateUpload (s : Store) (id : String) (u : MetadataUpdates) (now : Nat) :
    Store :=
  match getUpload s id with
  | none => s
  | some existing => replaceEntry s id (applyUpdates existing u now)

/-- `getActiveUploads()`: values whose status is `uploading` or `pending`. -/
def getActiveUploads (s : Store) : List UploadMetadata :=
  (s.map Prod.snd).filter
    (fun m => decide (m.status = Status.uploading) || decide (m.status = Status.pending))

end UploadStore

/-- The native transport handle as seen by the JS session: `createUpload`
returns an object exposing `id` and `uploadSize` (the fields `start()`
reads when inserting the store record). -/
structure NativeHandle where
  id : String
  uploadSize : Nat
deriving DecidableEq, Repr

/-- In-memory state of a `TusUpload` session object: `nativeUpload`,
`_file.uri`, `_options`, `_url`. The event-handler registry is modelled by
the emitted event trace. -/
structure Session where
  nativeUpload : Option NativeHandle
  fileUri : String
  options : TusOptions
  url : Option String
deriving DecidableEq, Repr

/-- Observable effects of a session operation: one element per fan-out to a
handler set, plus the pause signal sent to the transport. -/
inductive Event where
  | progress (bytesUploaded bytesTotal : Nat)
  | success
  | error
  | chunkComplete (chunkSize bytesUploaded bytesTotal : Nat)
  | transportPause
deriving DecidableEq, Repr

/-- Errors a session call can throw/reject with. -/
inductive UploadCallError where
  /-- the `Upload not initialized` error thrown by `pause`/`resume`
  before any `start()` -/
  | notStarted
  /-- `TusClientModule.createUpload` threw -/
  | transportCreation
  /-- `nativeUpload.start()` rejected -/
  | nativeStart
  /-- `nativeUpload.resume()` rejected -/
  | nativeResume
deriving DecidableEq, Repr

/-- Transport outcome for one `start()` call: whether `createUpload`
succeeds (and with which handle), and whether `nativeUpload.start()`
rejects; `now` is the clock value during the call. -/
structure StartEnv where
  createOutcome : Option NativeHandle
  nativeStartThrows : Bool
  now : Nat
deriving DecidableEq, Repr

/-- Whether this transport outcome makes `start()` reject. -/
def StartEnv.fails (env : StartEnv) : Prop :=
  env.createOutcome = none ∨ env.nativeStartThrows = true

instance (env : StartEnv) : Decidable env.fails :=
  inferInstanceAs (Decidable (_ ∨ _))

/-- The JS coercion `x || null` applied to a nullable string: `null` and
the (falsy) empty string both become `null`. -/
def jsOrNull (u : Option String) : Option String :=
  match u with
  | some str => if str == "" then none else some str
  | none => none

/-- JS truthiness of a nullable string (`if (uploadMetadata.url)`):
`null` and the empty string are falsy. -/
def jsTruthy (u : Option String) : Bool :=
  match u with
  | some str => !(str == "")
  | none => false

namespace TusUpload

/-- `TusUpload.handleError` (`uploadStore.ts` lines 464-476): fan out one
delivery round to the `error` handlers, then — only when a transport
handle exists — write `status: 'failed'` for that handle's record. -/
def handleError (s : Session) (store : Store) (now : Nat) :
    Store × List Event :=
  match s.nativeUpload with
  | some h =>
    (UploadStore.updateUpload store h.id { status := some Status.failed } now,
     [Event.error])
  | none => (store, [Event.error])

/-- The record inserted by `start()` on first call (`uploadStore.ts`
lines 234-245): `url: null`, `offset: 0`, `status: 'pending'`,
`metadata: this._options.metadata || {}`. -/
def newRecord (s : Session) (h : NativeHandle) (now : Nat) : UploadMetadata :=
  { id := h.id
    fileUri := s.fileUri
    url := none
    uploadSize := h.uploadSize
    offset := 0
    metadata := s.options.metadata.getD []
    options := s.options
    status := Status.pending
    createdAt := now
    updatedAt := now }

/-- `TusUpload.start` (`uploadStore.ts` lines 220-259). If no transport
handle exists: create one (a throwing `createUpload` is caught by the
surrounding try, routed through `handleError`, and rethrown), insert the
store record with status `pending`. In every case: promote the record to
`uploading` and invoke the native start; a rejecting native start is
routed through `handleError` and rethrown. -/
def start (s : Session) (store : Store) (env : StartEnv) :
    Except UploadCallError Unit × Session × Store × List Event :=
  match s.nativeUpload with
  | none =>
    match env.createOutcome with
    | none =>
      match handleError s store env.now with
      | (store1, evs) => (Except.error UploadCallError.transportCreation, s, store1, evs)
    | some h =>
      let s1 : Session := { s with nativeUpload := some h }
      let store1 := UploadStore.addUpload store h.id (newRecord s h env.now)
      let store2 :=
        UploadStore.updateUpload store1 h.id { status := some Status.uploading } env.now
      if env.nativeStartThrows then
        match handleError s1 store2 env.now with
        | (store3, evs) => (Except.error UploadCallError.nativeStart, s1, store3, evs)
      else
        (Except.ok (), s1, store2, [])
  | some h =>
    let store2 :=
      UploadStore.updateUpload store h.id { status := some Status.uploading } env.now
    if env.nativeStartThrows then
      match handleError s store2 env.now with
      | (store3, evs) => (Except.error UploadCallError.nativeStart, s, store3, evs)
    else
      (Except.ok (), s, store2, [])

/-- `TusUpload.pause` (`uploadStore.ts` lines 264-275): throws the
not-initialized error when no handle exists; otherwise signals the
transport to pause (the Kotlin `pause` sets a flag, the Swift `pause`
uses a swallowing cancel — neither throws) and writes status `paused`. -/
def pause (s : Session) (store : Store) (now : Nat) :
    Except UploadCallError Unit × Store × List Event :=
  match s.nativeUpload with
  | none => (Except.error UploadCallError.notStarted, store, [])
  | some h =>
    (Except.ok (),
     UploadStore.updateUpload store h.id { status := some Status.paused } now,
     [Event.transportPause])

/-- `TusUpload.resume` (`uploadStore.ts` lines 280-296): throws the
not-initialized error when no handle exists (before the try block, so no
error event); otherwise writes status `uploading` and invokes the native
resume; a rejection is routed through `handleError` and rethrown.
`resumeThrows` is the transport outcome. -/
def resume (s : Session) (store : Store) (resumeThrows : Bool) (now : Nat) :
    Except UploadCallError Unit × Store × List Event :=
  match s.nativeUpload with
  | none => (Except.error UploadCallError.notStarted, store, [])
  | some h =>
    let store1 :=
      UploadStore.updateUpload store h.id { status := some Status.uploading } now
    if resumeThrows then
      match handleError s store1 now with
      | (store2, evs) => (Except.error UploadCallError.nativeResume, store2, evs)
    else
      (Except.ok (), store1, [])

/-- `TusUpload.abort` (`uploadStore.ts` lines 301-316): silent no-op
without a handle; otherwise awaits the native abort and writes status
`failed`; a throwing native abort is logged and swallowed (no store
write, no rethrow). -/
def abort (s : Session) (store : Store) (abortThrows : Bool) (now : Nat) :
    Store × List Event :=
  match s.nativeUpload with
  | none => (store, [])
  | some h =>
    if abortThrows then (store, [])
    else (UploadStore.updateUpload store h.id { status := some Status.failed } now, [])

/-- The `onProgress` native callback binding (`uploadStore.ts` lines
403-417): fan out `(bytesUploaded, bytesTotal)` to the progress handlers,
then write `offset: bytesUploaded` — unclamped and unconditionally —
into the store. -/
def onProgressCb (s : Session) (store : Store) (bytesUploaded bytesTotal now : Nat) :
    Store × List Event :=
  match s.nativeUpload with
  | some h =>
    (UploadStore.updateUpload store h.id { offset := some bytesUploaded } now,
     [Event.progress bytesUploaded bytesTotal])
  | none => (store, [Event.progress bytesUploaded bytesTotal])

/-- The `onSuccess` native callback binding (`uploadStore.ts` lines
420-435): `this._url = this.nativeUpload?.url || null` (empty string
coerced to null), fan out to the success handlers, then write
`status: 'completed', url: this._url`. `reportedUrl` is the transport
handle's `url` property at callback time. -/
def onSuccessCb (s : Session) (store : Store) (reportedUrl : Option String) (now : Nat) :
    Session × Store × List Event :=
  match s.nativeUpload with
  | some h =>
    let u := jsOrNull reportedUrl
    ({ s with url := u },
     UploadStore.updateUpload store h.id
       { status := some Status.completed, url := some u } now,
     [Event.success])
  | none => ({ s with url := none }, store, [Event.success])

/-- The `onError` native callback binding (`uploadStore.ts` lines
438-444): wrap the transport error and delegate to `handleError`. -/
def onErrorCb (s : Session) (store : Store) (now : Nat) : Store × List Event :=
  handleError s store now

end TusUpload

namespace Native

/-- Progress snapshot returned by the native `getProgress` (`Tus.kt`
lines 249-256 and the Swift twin): `Double` arithmetic modelled exactly
over `ℚ`. -/
structure UploadProgress where
  bytesUploaded : ℚ
  bytesTotal : ℚ
  percentage : ℚ
deriving DecidableEq, Repr

/-- The native `getProgress` computation: `percentage` is
`bytesUploaded / bytesTotal * 100` guarded by `bytesTotal > 0`, and `0`
otherwise. -/
def getProgress (currentOffset uploadSize : ℚ) : UploadProgress :=
  { bytesUploaded := currentOffset
    bytesTotal := uploadSize
    percentage := if uploadSize > 0 then currentOffset / uploadSize * 100 else 0 }

end Native

/-- `TusUpload.getProgress` at the JS layer (`uploadStore.ts` lines
321-332): `null` when no transport handle exists, otherwise the native
snapshot (whose current offset and size live on the native side and are
passed here as parameters). -/
def sessionGetProgress (s : Session) (currentOffset uploadSize : ℚ) :
    Option Native.UploadProgress :=
  match s.nativeUpload with
  | none => none
  | some _ => some (Native.getProgress currentOffset uploadSize)

/-- A freshly constructed `TusUpload` (`new TusUpload(fileUri, options)`):
no transport handle, no url; the constructor performs no store access and
cannot throw on plain persisted data. -/
def freshSession (fileUri : String) (options : TusOptions) : Session :=
  { nativeUpload := none, fileUri := fileUri, options := options, url := none }

/-- The persisted offset of handle `h`'s record observed after each
progress callback of the delivered sequence: `bs` lists the
`bytesUploaded` value of each successive callback, `total` the delivered
`bytesTotal`. -/
def offsetsAfter (s : Session) (h : NativeHandle) (store : Store)
    (bs : List Nat) (total now : Nat) : List Nat :=
  match bs with
  | [] => []
  | b :: rest =>
    match TusUpload.onProgressCb s store b total now with
    | (store1, _) =>
      ((UploadStore.getUpload store1 h.id).map UploadMetadata.offset).getD 0
        :: offsetsAfter s h store1 rest total now

namespace BackgroundUploadManager

/-- Observable call trace of the bulk-resume loop: one element per
`upload.start()` invocation, tagged with the store record that triggered
it. -/
inductive Trace where
  | startCalled (recordId : String)
deriving DecidableEq, Repr

/-- One iteration of the `resumePendingUploads` loop (`Tus.nitro.ts`
lines 167-185): reconstruct a fresh session from the record's `fileUri`
and `options`; when the record's `url` is truthy, call `start()`; a
rejection is caught and the record (under its own id) is marked
`failed`. -/
def processRecord (store : Store) (m : UploadMetadata) (env : StartEnv) :
    Store × List Trace :=
  let s := freshSession m.fileUri m.options
  if jsTruthy m.url then
    match TusUpload.start s store env with
    | (Except.ok _, _, store1, _) => (store1, [Trace.startCalled m.id])
    | (Except.error _, _, store1, _) =>
      (UploadStore.updateUpload store1 m.id { status := some Status.failed } env.now,
       [Trace.startCalled m.id])
  else (store, [])

/-- The `for` loop of `resumePendingUploads` over the snapshot of active
records; `envs i` is the transport outcome of the `start()` attempt for
the record at position `i`. -/
def resumeLoop (store : Store) (records : List UploadMetadata)
    (envs : Nat → StartEnv) (i : Nat) : Store × List Trace :=
  match records with
  | [] => (store, [])
  | m :: rest =>
    match processRecord store m (envs i) with
    | (store1, tr1) =>
      match resumeLoop store1 rest envs (i + 1) with
      | (store2, tr2) => (store2, tr1 ++ tr2)

/-- `BackgroundUploadManager.resumePendingUploads` (`Tus.nitro.ts` lines
163-189): snapshot `getActiveUploads()`, then run the per-record loop.
The whole body sits in a try/catch that swallows everything, so the
coordinator call never throws — reflected here by the function being
total and returning a `Store` rather than an `Except`. -/
def resumePendingUploads (store : Store) (envs : Nat → StartEnv) :
    Store × List Trace :=
  resumeLoop store (UploadStore.getActiveUploads store) envs 0

end BackgroundUploadManager

/-! Concrete fixtures used by witness and counterexample theorems. -/

/-- Concrete upload options. -/
def cOpts : TusOptions := { endpoint := "https://srv/files" }

/-- Concrete transport handle produced by a successful `createUpload`. -/
def cHandle : NativeHandle := { id := "u1", uploadSize := 1000 }

/-- A freshly constructed session. -/
def cS0 : Session := freshSession "file:a" cOpts

/-- Transport outcome: creation succeeds, native start resolves. -/
def cEnvOk : StartEnv :=
  { createOutcome := some cHandle, nativeStartThrows := false, now := 1 }

/-- Transport outcome: `createUpload` throws. -/
def cEnvCreateFail : StartEnv :=
  { createOutcome := none, nativeStartThrows := false, now := 1 }

/-- Transport outcome: creation succeeds but the native start rejects. -/
def cEnvStartFail : StartEnv :=
  { createOutcome := some cHandle, nativeStartThrows := true, now := 1 }

/-- Session and store after a successful first `start()` on `cS0` against
the empty store. -/
def cStarted : Except UploadCallError Unit × Session × Store × List Event :=
  TusUpload.start cS0 [] cEnvOk

/-- The session after the successful first start. -/
def cS1 : Session := cStarted.2.1

/-- The store after the successful first start. -/
def cStore1 : Store := cStarted.2.2.1

/-- The record persisted for `cHandle` after the successful first start:
the freshly inserted record promoted to `uploading`. -/
def cRec1 : UploadMetadata :=
  applyUpdates (TusUpload.newRecord cS0 cHandle 1)
    { status := some Status.uploading } 1

/-- Store after the transport delivers `progress(700, 1000)`. -/
def cProg1 : Store := (TusUpload.onProgressCb cS1 cStore1 700 1000 2).1

/-- Store after the transport then delivers `progress(500, 1000)`. -/
def cProg2 : Store := (TusUpload.onProgressCb cS1 cProg1 500 1000 3).1

/-- Store after the transport then delivers `progress(1500, 1000)`,
overshooting the record's `uploadSize` of 1000. -/
def cProg3 : Store := (TusUpload.onProgressCb cS1 cProg2 1500 1000 4).1

/-- Result of the transport success callback firing while the transport
handle reports a `null` url. -/
def cSuccess : Session × Store × List Event :=
  TusUpload.onSuccessCb cS1 cStore1 none 5

/-- An active (uploading) record with a known remote url, for the
bulk-resume fixtures. -/
def cRecA : UploadMetadata :=
  { id := "a", fileUri := "file:a", url := some "https://srv/files/a"
    uploadSize := 10, offset := 2, metadata := [], options := cOpts
    status := Status.uploading, createdAt := 0, updatedAt := 0 }

/-- A second active (pending) record with a known remote url. -/
def cRecB : UploadMetadata :=
  { id := "b", fileUri := "file:b", url := some "https://srv/files/b"
    uploadSize := 20, offset := 0, metadata := [], options := cOpts
    status := Status.pending, createdAt := 0, updatedAt := 0 }

/-- A completed record, inactive for bulk resume. -/
def cRecC : UploadMetadata :=
  { id := "c", fileUri := "file:c", url := some "https://srv/files/c"
    uploadSize := 30, offset := 30, metadata := [], options := cOpts
    status := Status.completed, createdAt := 0, updatedAt := 0 }

/-- Store with two active records and one completed record. -/
def cStoreABC : Store := [("a", cRecA), ("b", cRecB), ("c", cRecC)]

/-- Per-record transport outcomes for bulk resume on `cStoreABC`: the
first attempted record fails at `createUpload`, the second succeeds with
a fresh handle. -/
def cEnvsAB : Nat → StartEnv := fun i =>
  if i = 0 then { createOutcome := none, nativeStartThrows := false, now := 5 }
  else { createOutcome := some { id := "h1", uploadSize := 20 }
         nativeStartThrows := false, now := 5 }

/-! Store lemmas. -/

namespace UploadStore

theorem getUpload_cons (p : String × UploadMetadata) (rest : Store) (k : String) :
    getUpload (p :: rest) k = if p.1 = k then some p.2 else getUpload rest k := by
  by_cases h : p.1 = k
  · simp [getUpload, List.find?_cons_of_pos, h]
  · simp [getUpload, List.find?_cons_of_neg, h]

theorem replaceEntry_cons (p : String × UploadMetadata) (rest : Store)
    (id : String) (v : UploadMetadata) :
    replaceEntry (p :: rest) id v =
      (if p.1 = id then (id, v) else p) :: replaceEntry rest id v := by
  by_cases h : p.1 = id <;> simp [replaceEntry, h]

theorem keys_replaceEntry (s : Store) (id : String) (v : UploadMetadata) :
    (replaceEntry s id v).map Prod.fst = s.map Prod.fst := by
  induction s with
  | nil => rfl
  | cons p rest ih =>
    rw [replaceEntry_cons]
    by_cases hp : p.1 = id
    · simp [hp, ih]
    · simp [hp, ih]

theorem getUpload_append (s t : Store) (k : String) :
    getUpload (s ++ t) k =
      match getUpload s k with
      | some v => some v
      | none => getUpload t k := by
  induction s with
  | nil => simp [getUpload]
  | cons p rest ih =>
    rw [List.cons_append, getUpload_cons, getUpload_cons]
    by_cases hp : p.1 = k
    · simp [hp]
    · simp [hp, ih]

theorem getUpload_replaceEntry_self (s : Store) (id : String) (v : UploadMetadata)
    (h : (getUpload s id).isSome) :
    getUpload (replaceEntry s id v) id = some v := by
  induction s with
  | nil => simp [getUpload] at h
  | cons p rest ih =>
    rw [replaceEntry_cons]
    rw [getUpload_cons] at h
    by_cases hp : p.1 = id
    · rw [if_pos hp, getUpload_cons, if_pos rfl]
    · rw [if_neg hp, getUpload_cons, if_neg hp]
      rw [if_neg hp] at h
      exact ih h

theorem getUpload_replaceEntry_ne (s : Store) (id k : String) (v : UploadMetadata)
    (hk : k ≠ id) :
    getUpload (replaceEntry s id v) k = getUpload s k := by
  induction s with
  | nil => rfl
  | cons p rest ih =>
    rw [replaceEntry_cons, getUpload_cons, getUpload_cons]
    by_cases hp : p.1 = id
    · rw [if_pos hp]
      have h1 : ¬ ((id, v).1 = k) := fun h => hk h.symm
      have h2 : ¬ (p.1 = k) := fun h => hk (hp ▸ h).symm
      rw [if_neg h1, if_neg h2, ih]
    · rw [if_neg hp]
      by_cases hq : p.1 = k
      · rw [if_pos hq, if_pos hq]
      · rw [if_neg hq, if_neg hq, ih]

theorem getUpload_isSome_of_any (s : Store) (id : String)
    (h : s.any (fun p => p.1 == id)) : (getUpload s id).isSome := by
  induction s with
  | nil => simp at h
  | cons p rest ih =>
    rw [getUpload_cons]
    simp only [List.any_cons, Bool.or_eq_true, beq_iff_eq] at h
    by_cases hp : p.1 = id
    · rw [if_pos hp]; rfl
    · rw [if_neg hp]
      exact ih (h.resolve_left hp)

theorem getUpload_none_of_not_any (s : Store) (id : String)
    (h : ¬ s.any (fun p => p.1 == id)) : getUpload s id = none := by
  induction s with
  | nil => rfl
  | cons p rest ih =>
    rw [getUpload_cons]
    simp only [List.any_cons, Bool.or_eq_true, beq_iff_eq, not_or] at h
    rw [if_neg h.1]
    exact ih (by simpa using h.2)

theorem getUpload_addUpload_self (s : Store) (id : String) (m : UploadMetadata) :
    getUpload (addUpload s id m) id = some m := by
  unfold addUpload
  by_cases hc : s.any (fun p => p.1 == id)
  · rw [if_pos hc]
    exact getUpload_replaceEntry_self s id m (getUpload_isSome_of_any s id hc)
  · rw [if_neg hc, getUpload_append, getUpload_none_of_not_any s id hc]
    rw [getUpload_cons, if_pos rfl]

theorem getUpload_addUpload_ne (s : Store) (id k : String) (m : UploadMetadata)
    (hk : k ≠ id) :
    getUpload (addUpload s id m) k = getUpload s k := by
  unfold addUpload
  by_cases hc : s.any (fun p => p.1 == id)
  · rw [if_pos hc]
    exact getUpload_replaceEntry_ne s id k m hk
  · rw [if_neg hc, getUpload_append]
    cases hg : getUpload s k with
    | some v => rfl
    | none =>
      rw [getUpload_cons, if_neg (fun h => hk h.symm)]
      rfl

theorem getUpload_updateUpload_self (s : Store) (id : String) (u : MetadataUpdates)
    (now : Nat) (old : UploadMetadata) (h : getUpload s id = some old) :
    getUpload (updateUpload s id u now) id = some (applyUpdates old u now) := by
  unfold updateUpload
  rw [h]
  exact getUpload_replaceEntry_self s id _ (by rw [h]; rfl)

theorem getUpload_updateUpload_ne (s : Store) (id k : String) (u : MetadataUpdates)
    (now : Nat) (hk : k ≠ id) :
    getUpload (updateUpload s id u now) k = getUpload s k := by
  unfold updateUpload
  cases hg : getUpload s id with
  | none => rfl
  | some old => exact getUpload_replaceEntry_ne s id k _ hk

theorem updateUpload_absent (s : Store) (id : String) (u : MetadataUpdates)
    (now : Nat) (h : getUpload s id = none) :
    updateUpload s id u now = s := by
  unfold updateUpload
  rw [h]

theorem keys_updateUpload (s : Store) (id : String) (u : MetadataUpdates)
    (now : Nat) :
    (updateUpload s id u now).map Prod.fst = s.map Prod.fst := by
  unfold updateUpload
  cases hg : getUpload s id with
  | none => rfl
  | some old => exact keys_replaceEntry s id _

end UploadStore

/-! Session lemmas: closed-form results of `start` in each transport
outcome, and the keys it can touch. -/

namespace TusUpload

theorem start_createFail (s : Session) (store : Store) (env : StartEnv)
    (hs : s.nativeUpload = none) (hc : env.createOutcome = none) :
    start s store env =
      (Except.error UploadCallError.transportCreation, s, store, [Event.error]) := by
  simp [start, hs, hc, handleError]

theorem start_createOk (s : Session) (store : Store) (env : StartEnv)
    (h : NativeHandle) (hs : s.nativeUpload = none)
    (hc : env.createOutcome = some h) (hns : env.nativeStartThrows = false) :
    start s store env =
      (Except.ok (), { s with nativeUpload := some h },
       UploadStore.updateUpload
         (UploadStore.addUpload store h.id (newRecord s h env.now)) h.id
         { status := some Status.uploading } env.now,
       []) := by
  simp [start, hs, hc, hns]

theorem start_createOk_nativeFail (s : Session) (store : Store) (env : StartEnv)
    (h : NativeHandle) (hs : s.nativeUpload = none)
    (hc : env.createOutcome = some h) (hns : env.nativeStartThrows = true) :
    start s store env =
      (Except.error UploadCallError.nativeStart, { s with nativeUpload := some h },
       UploadStore.updateUpload
         (UploadStore.updateUpload
           (UploadStore.addUpload store h.id (newRecord s h env.now)) h.id
           { status := some Status.uploading } env.now)
         h.id { status := some Status.failed } env.now,
       [Event.error]) := by
  simp [start, hs, hc, hns, handleError]

theorem start_reuse (s : Session) (store : Store) (env : StartEnv)
    (h : NativeHandle) (hs : s.nativeUpload = some h)
    (hns : env.nativeStartThrows = false) :
    start s store env =
      (Except.ok (), s,
       UploadStore.updateUpload store h.id { status := some Status.uploading } env.now,
       []) := by
  simp [start, hs, hns]

theorem start_reuse_nativeFail (s : Session) (store : Store) (env : StartEnv)
    (h : NativeHandle) (hs : s.nativeUpload = some h)
    (hns : env.nativeStartThrows = true) :
    start s store env =
      (Except.error UploadCallError.nativeStart, s,
       UploadStore.updateUpload
         (UploadStore.updateUpload store h.id
           { status := some Status.uploading } env.now)
         h.id { status := some Status.failed } env.now,
       [Event.error]) := by
  simp [start, hs, hns, handleError]

/-- A `start()` call on a fresh session only ever writes under the id of
the handle the transport created. -/
theorem start_frame (s : Session) (store : Store) (env : StartEnv) (k : String)
    (hs : s.nativeUpload = none)
    (hk : ∀ h, env.createOutcome = some h → k ≠ h.id) :
    UploadStore.getUpload (start s store env).2.2.1 k = UploadStore.getUpload store k := by
  cases hc : env.createOutcome with
  | none => rw [start_createFail s store env hs hc]
  | some h =>
    have hkh := hk h hc
    cases hns : env.nativeStartThrows with
    | false =>
      rw [start_createOk s store env h hs hc hns]
      rw [UploadStore.getUpload_updateUpload_ne _ _ _ _ _ hkh,
        UploadStore.getUpload_addUpload_ne _ _ _ _ hkh]
    | true =>
      rw [start_createOk_nativeFail s store env h hs hc hns]
      rw [UploadStore.getUpload_updateUpload_ne _ _ _ _ _ hkh,
        UploadStore.getUpload_updateUpload_ne _ _ _ _ _ hkh,
        UploadStore.getUpload_addUpload_ne _ _ _ _ hkh]

end TusUpload

/-! Bulk-resume lemmas. -/

namespace BackgroundUploadManager

theorem processRecord_trace (store : Store) (m : UploadMetadata) (env : StartEnv) :
    (processRecord store m env).2 =
      if jsTruthy m.url then [Trace.startCalled m.id] else [] := by
  unfold processRecord
  by_cases ht : jsTruthy m.url
  · simp only [ht, if_true]
    rcases hstart : TusUpload.start (freshSession m.fileUri m.options) store env
      with ⟨res, s1, store1, evs⟩
    cases res <;> rfl
  · simp only [ht, Bool.false_eq_true, if_false]

/-- One loop iteration only ever writes under the record's own id or
under the id of the handle its `start()` attempt created. -/
theorem processRecord_frame (store : Store) (m : UploadMetadata) (env : StartEnv)
    (k : String) (hk1 : k ≠ m.id)
    (hk2 : ∀ h, env.createOutcome = some h → k ≠ h.id) :
    UploadStore.getUpload (processRecord store m env).1 k =
      UploadStore.getUpload store k := by
  unfold processRecord
  by_cases ht : jsTruthy m.url
  · simp only [ht, if_true]
    have hframe := TusUpload.start_frame (freshSession m.fileUri m.options) store env k
      rfl hk2
    rcases hstart : TusUpload.start (freshSession m.fileUri m.options) store env
      with ⟨res, s1, store1, evs⟩
    rw [hstart] at hframe
    cases res with
    | ok _ => exact hframe
    | error _ =>
      simp only
      rw [UploadStore.getUpload_updateUpload_ne _ _ _ _ _ hk1]
      exact hframe
  · simp only [ht, Bool.false_eq_true, if_false]

/-- A loop iteration whose record has a truthy url and whose transport
outcome makes `start()` reject leaves that record marked `failed`. -/
theorem processRecord_fails (store : Store) (m : UploadMetadata) (env : StartEnv)
    (ht : jsTruthy m.url) (hf : env.fails)
    (hpres : (UploadStore.getUpload store m.id).isSome)
    (hk : ∀ h, env.createOutcome = some h → m.id ≠ h.id) :
    (UploadStore.getUpload (processRecord store m env).1 m.id).map
      UploadMetadata.status = some Status.failed := by
  obtain ⟨old, hold⟩ := Option.isSome_iff_exists.mp hpres
  unfold processRecord
  simp only [ht, if_true]
  cases hc : env.createOutcome with
  | none =>
    rw [TusUpload.start_createFail (freshSession m.fileUri m.options) store env rfl hc]
    simp only
    rw [UploadStore.getUpload_updateUpload_self store m.id _ env.now old hold]
    rfl
  | some h =>
    cases hns : env.nativeStartThrows with
    | false =>
      rcases hf with hf | hf
      · rw [hc] at hf
        exact absurd hf (by simp)
      · rw [hns] at hf
        exact absurd hf (by simp)
    | true =>
      rw [TusUpload.start_createOk_nativeFail (freshSession m.fileUri m.options)
        store env h rfl hc hns]
      simp only
      have hkh := hk h hc
      have hl1 : UploadStore.getUpload
          (UploadStore.addUpload store h.id
            (TusUpload.newRecord (freshSession m.fileUri m.options) h env.now)) m.id
          = some old := by
        rw [UploadStore.getUpload_addUpload_ne _ _ _ _ hkh, hold]
      have hl2 := UploadStore.getUpload_updateUpload_ne
        (UploadStore.addUpload store h.id
          (TusUpload.newRecord (freshSession m.fileUri m.options) h env.now))
        h.id m.id { status := some Status.uploading } env.now hkh
      have hl3 := UploadStore.getUpload_updateUpload_ne
        (UploadStore.updateUpload
          (UploadStore.addUpload store h.id
            (TusUpload.newRecord (freshSession m.fileUri m.options) h env.now))
          h.id { status := some Status.uploading } env.now)
        h.id m.id { status := some Status.failed } env.now hkh
      rw [UploadStore.getUpload_updateUpload_self _ m.id _ env.now old
        (by rw [hl3, hl2, hl1])]
      rfl

theorem resumeLoop_trace (records : List UploadMetadata) (envs : Nat → StartEnv)
    (i : Nat) (store : Store) :
    (resumeLoop store records envs i).2 =
      (records.filter (fun m => jsTruthy m.url)).map
        (fun m => Trace.startCalled m.id) := by
  induction records generalizing store i with
  | nil => rfl
  | cons m rest ih =>
    unfold resumeLoop
    rcases hpr : processRecord store m (envs i) with ⟨store1, tr1⟩
    simp only
    rw [ih (i + 1) store1]
    have t1 : tr1 = if jsTruthy m.url then [Trace.startCalled m.id] else [] := by
      rw [← processRecord_trace store m (envs i), hpr]
    by_cases ht : jsTruthy m.url
    · simp [List.filter_cons, ht, t1]
    · simp [List.filter_cons, ht, t1]

theorem resumeLoop_frame (records : List UploadMetadata) (envs : Nat → StartEnv)
    (i : Nat) (store : Store) (k : String)
    (h1 : ∀ m ∈ records, m.id ≠ k)
    (h2 : ∀ j h, (envs j).createOutcome = some h → h.id ≠ k) :
    UploadStore.getUpload (resumeLoop store records envs i).1 k =
      UploadStore.getUpload store k := by
  induction records generalizing store i with
  | nil => rfl
  | cons m rest ih =>
    unfold resumeLoop
    rcases hpr : processRecord store m (envs i) with ⟨store1, tr1⟩
    simp only
    have hst1 : store1 = (processRecord store m (envs i)).1 := by rw [hpr]
    rw [ih (i + 1) store1 (fun mm hm => h1 mm (List.mem_cons_of_mem m hm)),
      hst1, processRecord_frame store m (envs i) k
        (fun he => h1 m (List.mem_cons_self m rest) he.symm)
        (fun hh hc he => h2 i hh hc he.symm)]

/-- If the record at position `j` of the snapshot has a truthy url, its
`start()` attempt fails, no other record shares its id and no created
handle reuses its id, then the loop leaves that record marked `failed`. -/
theorem resumeLoop_marks_failed (records : List UploadMetadata)
    (envs : Nat → StartEnv) (i : Nat) (store : Store) (j : Nat)
    (m : UploadMetadata) (hj : records[j]? = some m)
    (hne : ∀ jj mm, records[jj]? = some mm → jj ≠ j → mm.id ≠ m.id)
    (hhandles : ∀ jj hh, (envs jj).createOutcome = some hh → hh.id ≠ m.id)
    (hpres : (UploadStore.getUpload store m.id).isSome)
    (ht : jsTruthy m.url) (hf : (envs (i + j)).fails) :
    (UploadStore.getUpload (resumeLoop store records envs i).1 m.id).map
      UploadMetadata.status = some Status.failed := by
  induction records generalizing store i j with
  | nil => simp at hj
  | cons r rest ih =>
    unfold resumeLoop
    rcases hpr : processRecord store r (envs i) with ⟨store1, tr1⟩
    simp only
    have hst1 : store1 = (processRecord store r (envs i)).1 := by rw [hpr]
    cases j with
    | zero =>
      have hm : r = m := by simpa using hj
      subst hm
      have hfi : (envs i).fails := by simpa using hf
      have hrest : ∀ mm ∈ rest, mm.id ≠ r.id := by
        intro mm hm
        obtain ⟨jj, hjj⟩ := List.mem_iff_getElem?.mp hm
        exact hne (jj + 1) mm (by simpa using hjj) (Nat.succ_ne_zero jj)
      rw [resumeLoop_frame rest envs (i + 1) store1 r.id hrest
        (fun jj hh hc => hhandles jj hh hc), hst1]
      exact processRecord_fails store r (envs i) ht hfi hpres
        (fun hh hc => (hhandles i hh hc).symm)
    | succ j0 =>
      have hj0 : rest[j0]? = some m := by simpa using hj
      have hne0 : r.id ≠ m.id :=
        hne 0 r (by simp) (by omega)
      have hpres1 : (UploadStore.getUpload store1 m.id).isSome := by
        rw [hst1, processRecord_frame store r (envs i) m.id
          (fun he => hne0 he.symm)
          (fun hh hc => fun he => hhandles i hh hc he.symm)]
        exact hpres
      have hfi : (envs (i + 1 + j0)).fails := by
        have harith : i + 1 + j0 = i + (j0 + 1) := by omega
        rw [harith]
        exact hf
      exact ih (i + 1) store1 j0 hj0
        (fun jj mm hjj hne2 =>
          hne (jj + 1) mm (by simpa using hjj) (by omega))
        hpres1 hfi

end BackgroundUploadManager

/-! Claim theorems. -/

/-- C7: for an id present in the store, `update(id, partialFields)`
produces the old record overridden by the given fields with `updatedAt`
set to the current time; for an absent id it returns the store unchanged
(the operation is a total function, hence never throws). -/
theorem updateUpload_merge_or_noop (store : Store) (id : String)
    (u : MetadataUpdates) (now : Nat) :
    (∀ old, UploadStore.getUpload store id = some old →
      UploadStore.getUpload (UploadStore.updateUpload store id u now) id =
        some (applyUpdates old u now)) ∧
    (UploadStore.getUpload store id = none →
      UploadStore.updateUpload store id u now = store) :=
  ⟨fun old hold => UploadStore.getUpload_updateUpload_self store id u now old hold,
   fun hnone => UploadStore.updateUpload_absent store id u now hnone⟩

/-- Witness for C7 at the concrete store `cStoreABC`: updating the
present id `a` merges the fields and stamps `updatedAt`; updating the
absent id `zz` is a no-op. -/
theorem updateUpload_merge_or_noop_witness :
    UploadStore.getUpload cStoreABC "a" = some cRecA ∧
    UploadStore.getUpload
        (UploadStore.updateUpload cStoreABC "a" { status := some Status.paused } 9) "a" =
      some (applyUpdates cRecA { status := some Status.paused } 9) ∧
    UploadStore.getUpload cStoreABC "zz" = none ∧
    UploadStore.updateUpload cStoreABC "zz" { status := some Status.paused } 9 =
      cStoreABC :=
  ⟨by decide,
   (updateUpload_merge_or_noop cStoreABC "a" { status := some Status.paused } 9).1
     cRecA (by decide),
   by decide,
   (updateUpload_merge_or_noop cStoreABC "zz" { status := some Status.paused } 9).2
     (by decide)⟩

/-- C10: `update` on an existing id keeps every field whose key is absent
from the partial object — except `updatedAt`, which is always restamped —
and leaves every record stored under any other id untouched. -/
theorem updateUpload_frame_effect (store : Store) (id : String)
    (u : MetadataUpdates) (now : Nat) (old : UploadMetadata)
    (hold : UploadStore.getUpload store id = some old) :
    UploadStore.getUpload (UploadStore.updateUpload store id u now) id =
      some (applyUpdates old u now) ∧
    (u.id = none → (applyUpdates old u now).id = old.id) ∧
    (u.fileUri = none → (applyUpdates old u now).fileUri = old.fileUri) ∧
    (u.url = none → (applyUpdates old u now).url = old.url) ∧
    (u.uploadSize = none → (applyUpdates old u now).uploadSize = old.uploadSize) ∧
    (u.offset = none → (applyUpdates old u now).offset = old.offset) ∧
    (u.metadata = none → (applyUpdates old u now).metadata = old.metadata) ∧
    (u.options = none → (applyUpdates old u now).options = old.options) ∧
    (u.status = none → (applyUpdates old u now).status = old.status) ∧
    (u.createdAt = none → (applyUpdates old u now).createdAt = old.createdAt) ∧
    (applyUpdates old u now).updatedAt = now ∧
    (∀ k, k ≠ id →
      UploadStore.getUpload (UploadStore.updateUpload store id u now) k =
        UploadStore.getUpload store k) := by
  refine ⟨UploadStore.getUpload_updateUpload_self store id u now old hold,
    ?_, ?_, ?_, ?_, ?_, ?_, ?_, ?_, ?_, rfl,
    fun k hk => UploadStore.getUpload_updateUpload_ne store id k u now hk⟩
  all_goals intro hnone
  all_goals simp [applyUpdates, hnone]

/-- Witness for C10 at `cStoreABC`: updating only the status of record
`a` keeps its other fields and leaves record `b` untouched. -/
theorem updateUpload_frame_effect_witness :
    UploadStore.getUpload cStoreABC "a" = some cRecA ∧
    UploadStore.getUpload
        (UploadStore.updateUpload cStoreABC "a" { status := some Status.paused } 9) "a" =
      some (applyUpdates cRecA { status := some Status.paused } 9) ∧
    (applyUpdates cRecA { status := some Status.paused } 9).offset = cRecA.offset ∧
    (applyUpdates cRecA { status := some Status.paused } 9).updatedAt = 9 ∧
    UploadStore.getUpload
        (UploadStore.updateUpload cStoreABC "a" { status := some Status.paused } 9) "b" =
      UploadStore.getUpload cStoreABC "b" := by
  have hmain := updateUpload_frame_effect cStoreABC "a"
    { status := some Status.paused } 9 cRecA (by decide)
  exact ⟨by decide, hmain.1, hmain.2.2.2.2.2.1 rfl, hmain.2.2.2.2.2.2.2.2.2.2.1,
    hmain.2.2.2.2.2.2.2.2.2.2.2 "b" (by decide)⟩

/-- C8: on a started session (transport handle present), `getProgress()`
returns the native snapshot whose `percentage` is
`bytesUploaded / bytesTotal * 100` whenever `bytesTotal > 0`, and is the
plain number `0` (division is never performed) when `bytesTotal == 0`.
The native `Double` arithmetic is modelled exactly over `ℚ`. -/
theorem getProgress_percentage (s : Session) (currentOffset uploadSize : ℚ)
    (h : NativeHandle) (hs : s.nativeUpload = some h) :
    sessionGetProgress s currentOffset uploadSize =
      some (Native.getProgress currentOffset uploadSize) ∧
    (uploadSize > 0 →
      (Native.getProgress currentOffset uploadSize).percentage =
        currentOffset / uploadSize * 100) ∧
    (uploadSize = 0 →
      (Native.getProgress currentOffset uploadSize).percentage = 0) := by
  refine ⟨by simp [sessionGetProgress, hs], fun hpos => ?_, fun h0 => ?_⟩
  · simp [Native.getProgress, hpos]
  · simp [Native.getProgress, h0]

/-- Witness for C8 on the started session `cS1`: 500 of 1000 bytes give
percentage 50, and a zero `bytesTotal` gives percentage 0, not an error. -/
theorem getProgress_percentage_witness :
    cS1.nativeUpload = some cHandle ∧
    sessionGetProgress cS1 500 1000 = some (Native.getProgress 500 1000) ∧
    (Native.getProgress 500 1000).percentage = 50 ∧
    sessionGetProgress cS1 500 0 = some (Native.getProgress 500 0) ∧
    (Native.getProgress 500 0).percentage = 0 := by
  have h1 := getProgress_percentage cS1 500 1000 cHandle (by decide)
  have h2 := getProgress_percentage cS1 500 0 cHandle (by decide)
  refine ⟨by decide, h1.1, ?_, h2.1, h2.2.2 rfl⟩
  rw [h1.2.1 (by norm_num)]
  norm_num

/-- C5: a second `start()` on a session that already holds a transport
handle reuses that handle — the session object is unchanged, so no second
handle is created (the result does not even depend on what a new
`createUpload` would return) — and inserts no second store record: the
key set of the store is unchanged. -/
theorem start_twice_reuses (s0 : Session) (store0 : Store)
    (env1 env2 env2a : StartEnv) (h : NativeHandle)
    (hs0 : s0.nativeUpload = none) (hc : env1.createOutcome = some h)
    (hts : env2a.nativeStartThrows = env2.nativeStartThrows)
    (htn : env2a.now = env2.now) :
    (TusUpload.start s0 store0 env1).2.1.nativeUpload = some h ∧
    (TusUpload.start (TusUpload.start s0 store0 env1).2.1
        (TusUpload.start s0 store0 env1).2.2.1 env2).2.1 =
      (TusUpload.start s0 store0 env1).2.1 ∧
    ((TusUpload.start (TusUpload.start s0 store0 env1).2.1
        (TusUpload.start s0 store0 env1).2.2.1 env2).2.2.1).map Prod.fst =
      ((TusUpload.start s0 store0 env1).2.2.1).map Prod.fst ∧
    TusUpload.start (TusUpload.start s0 store0 env1).2.1
        (TusUpload.start s0 store0 env1).2.2.1 env2a =
      TusUpload.start (TusUpload.start s0 store0 env1).2.1
        (TusUpload.start s0 store0 env1).2.2.1 env2 := by
  have hsess : (TusUpload.start s0 store0 env1).2.1.nativeUpload = some h := by
    cases hns1 : env1.nativeStartThrows with
    | false => rw [TusUpload.start_createOk s0 store0 env1 h hs0 hc hns1]
    | true => rw [TusUpload.start_createOk_nativeFail s0 store0 env1 h hs0 hc hns1]
  have hreuse : ∀ env : StartEnv,
      TusUpload.start (TusUpload.start s0 store0 env1).2.1
          (TusUpload.start s0 store0 env1).2.2.1 env =
        if env.nativeStartThrows then
          (Except.error UploadCallError.nativeStart,
           (TusUpload.start s0 store0 env1).2.1,
           UploadStore.updateUpload
             (UploadStore.updateUpload (TusUpload.start s0 store0 env1).2.2.1 h.id
               { status := some Status.uploading } env.now)
             h.id { status := some Status.failed } env.now,
           [Event.error])
        else
          (Except.ok (), (TusUpload.start s0 store0 env1).2.1,
           UploadStore.updateUpload (TusUpload.start s0 store0 env1).2.2.1 h.id
             { status := some Status.uploading } env.now,
           []) := by
    intro env
    cases hns : env.nativeStartThrows with
    | false =>
      rw [TusUpload.start_reuse _ _ env h hsess hns]
      simp
    | true =>
      rw [TusUpload.start_reuse_nativeFail _ _ env h hsess hns]
      simp
  refine ⟨hsess, ?_, ?_, ?_⟩
  · rw [hreuse env2]
    cases hns : env2.nativeStartThrows <;> simp
  · rw [hreuse env2]
    cases hns : env2.nativeStartThrows with
    | false =>
      simp only [Bool.false_eq_true, if_false]
      exact UploadStore.keys_updateUpload _ _ _ _
    | true =>
      simp only [if_true]
      rw [UploadStore.keys_updateUpload _ _ _ _, UploadStore.keys_updateUpload _ _ _ _]
  · rw [hreuse env2, hreuse env2a, hts, htn]

/-- Witness for C5: a second `start()` after the successful first one on
`cS0`, where the hypothetical second `createUpload` outcome differs
(`cEnvCreateFail` versus `cEnvOk` with the same clock and native-start
outcome), produces the identical result — the handle is reused. -/
theorem start_twice_reuses_witness :
    cS0.nativeUpload = none ∧
    cEnvOk.createOutcome = some cHandle ∧
    (TusUpload.start cS0 [] cEnvOk).2.1.nativeUpload = some cHandle ∧
    (TusUpload.start (TusUpload.start cS0 [] cEnvOk).2.1
        (TusUpload.start cS0 [] cEnvOk).2.2.1 cEnvOk).2.1 =
      (TusUpload.start cS0 [] cEnvOk).2.1 ∧
    ((TusUpload.start (TusUpload.start cS0 [] cEnvOk).2.1
        (TusUpload.start cS0 [] cEnvOk).2.2.1 cEnvOk).2.2.1).map Prod.fst =
      ((TusUpload.start cS0 [] cEnvOk).2.2.1).map Prod.fst ∧
    TusUpload.start (TusUpload.start cS0 [] cEnvOk).2.1
        (TusUpload.start cS0 [] cEnvOk).2.2.1 cEnvCreateFail =
      TusUpload.start (TusUpload.start cS0 [] cEnvOk).2.1
        (TusUpload.start cS0 [] cEnvOk).2.2.1 cEnvOk := by
  have hmain := start_twice_reuses cS0 [] cEnvOk cEnvOk cEnvCreateFail cHandle
    rfl rfl rfl rfl
  exact ⟨rfl, rfl, hmain.1, hmain.2.1, hmain.2.2.1, hmain.2.2.2⟩

/-- C6: `pause()` before any `start()` throws the not-initialized error
and leaves the store untouched; `pause()` after a successful `start()`
returns without error, signals the transport to pause, and writes status
`paused` into the started record. -/
theorem pause_not_started_or_paused (s0 : Session) (store0 : Store)
    (env : StartEnv) (h : NativeHandle) (now : Nat)
    (hs0 : s0.nativeUpload = none) (hc : env.createOutcome = some h)
    (hns : env.nativeStartThrows = false) :
    TusUpload.pause s0 store0 now =
      (Except.error UploadCallError.notStarted, store0, []) ∧
    (TusUpload.pause (TusUpload.start s0 store0 env).2.1
        (TusUpload.start s0 store0 env).2.2.1 now).1 = Except.ok () ∧
    (TusUpload.pause (TusUpload.start s0 store0 env).2.1
        (TusUpload.start s0 store0 env).2.2.1 now).2.2 = [Event.transportPause] ∧
    (UploadStore.getUpload
        (TusUpload.pause (TusUpload.start s0 store0 env).2.1
          (TusUpload.start s0 store0 env).2.2.1 now).2.1 h.id).map
      UploadMetadata.status = some Status.paused := by
  have hstart := TusUpload.start_createOk s0 store0 env h hs0 hc hns
  have hrec1 : UploadStore.getUpload (TusUpload.start s0 store0 env).2.2.1 h.id =
      some (applyUpdates (TusUpload.newRecord s0 h env.now)
        { status := some Status.uploading } env.now) := by
    rw [hstart]
    exact UploadStore.getUpload_updateUpload_self _ h.id _ env.now _
      (UploadStore.getUpload_addUpload_self store0 h.id _)
  have hsess : (TusUpload.start s0 store0 env).2.1.nativeUpload = some h := by
    rw [hstart]
  refine ⟨by simp [TusUpload.pause, hs0], ?_, ?_, ?_⟩
  · simp [TusUpload.pause, hsess]
  · simp [TusUpload.pause, hsess]
  · have : (TusUpload.pause (TusUpload.start s0 store0 env).2.1
        (TusUpload.start s0 store0 env).2.2.1 now).2.1 =
      UploadStore.updateUpload (TusUpload.start s0 store0 env).2.2.1 h.id
        { status := some Status.paused } now := by
      simp [TusUpload.pause, hsess]
    rw [this, UploadStore.getUpload_updateUpload_self _ h.id _ now _ hrec1]
    rfl

/-- Witness for C6: concrete fresh session `cS0`, then after the
successful start, pause marks record `u1` paused. -/
theorem pause_not_started_or_paused_witness :
    cS0.nativeUpload = none ∧
    TusUpload.pause cS0 [] 7 = (Except.error UploadCallError.notStarted, [], []) ∧
    (TusUpload.pause (TusUpload.start cS0 [] cEnvOk).2.1
        (TusUpload.start cS0 [] cEnvOk).2.2.1 7).1 = Except.ok () ∧
    (TusUpload.pause (TusUpload.start cS0 [] cEnvOk).2.1
        (TusUpload.start cS0 [] cEnvOk).2.2.1 7).2.2 = [Event.transportPause] ∧
    (UploadStore.getUpload
        (TusUpload.pause (TusUpload.start cS0 [] cEnvOk).2.1
          (TusUpload.start cS0 [] cEnvOk).2.2.1 7).2.1 "u1").map
      UploadMetadata.status = some Status.paused := by
  have hmain := pause_not_started_or_paused cS0 [] cEnvOk cHandle 7 rfl rfl rfl
  exact ⟨rfl, hmain.1, hmain.2.1, hmain.2.2.1, hmain.2.2.2⟩

/-- C9: after `abort()` on a started session has marked the record
`failed`, a further `start()` reuses the same transport handle and the
same store record — the session object is unchanged and the key set of
the store is unchanged — and flips that record's status from `failed`
back to `uploading`. -/
theorem start_after_abort_reuses (s0 : Session) (store0 : Store)
    (env1 env2 : StartEnv) (h : NativeHandle) (now1 : Nat)
    (hs0 : s0.nativeUpload = none) (hc : env1.createOutcome = some h)
    (hns1 : env1.nativeStartThrows = false)
    (hns2 : env2.nativeStartThrows = false) :
    (UploadStore.getUpload
        (TusUpload.abort (TusUpload.start s0 store0 env1).2.1
          (TusUpload.start s0 store0 env1).2.2.1 false now1).1 h.id).map
      UploadMetadata.status = some Status.failed ∧
    (TusUpload.start (TusUpload.start s0 store0 env1).2.1
        (TusUpload.abort (TusUpload.start s0 store0 env1).2.1
          (TusUpload.start s0 store0 env1).2.2.1 false now1).1 env2).2.1 =
      (TusUpload.start s0 store0 env1).2.1 ∧
    ((TusUpload.start (TusUpload.start s0 store0 env1).2.1
        (TusUpload.abort (TusUpload.start s0 store0 env1).2.1
          (TusUpload.start s0 store0 env1).2.2.1 false now1).1 env2).2.2.1).map
      Prod.fst =
      ((TusUpload.abort (TusUpload.start s0 store0 env1).2.1
          (TusUpload.start s0 store0 env1).2.2.1 false now1).1).map Prod.fst ∧
    (UploadStore.getUpload
        (TusUpload.start (TusUpload.start s0 store0 env1).2.1
          (TusUpload.abort (TusUpload.start s0 store0 env1).2.1
            (TusUpload.start s0 store0 env1).2.2.1 false now1).1 env2).2.2.1
        h.id).map UploadMetadata.status = some Status.uploading := by
  have hstart := TusUpload.start_createOk s0 store0 env1 h hs0 hc hns1
  have hsess : (TusUpload.start s0 store0 env1).2.1.nativeUpload = some h := by
    rw [hstart]
  have hrec1 : UploadStore.getUpload (TusUpload.start s0 store0 env1).2.2.1 h.id =
      some (applyUpdates (TusUpload.newRecord s0 h env1.now)
        { status := some Status.uploading } env1.now) := by
    rw [hstart]
    exact UploadStore.getUpload_updateUpload_self _ h.id _ env1.now _
      (UploadStore.getUpload_addUpload_self store0 h.id _)
  have habort : (TusUpload.abort (TusUpload.start s0 store0 env1).2.1
      (TusUpload.start s0 store0 env1).2.2.1 false now1).1 =
      UploadStore.updateUpload (TusUpload.start s0 store0 env1).2.2.1 h.id
        { status := some Status.failed } now1 := by
    simp [TusUpload.abort, hsess]
  have hrec2 := UploadStore.getUpload_updateUpload_self
    (TusUpload.start s0 store0 env1).2.2.1 h.id
    { status := some Status.failed } now1 _ hrec1
  have hstart2 := TusUpload.start_reuse (TusUpload.start s0 store0 env1).2.1
    (TusUpload.abort (TusUpload.start s0 store0 env1).2.1
      (TusUpload.start s0 store0 env1).2.2.1 false now1).1 env2 h hsess hns2
  refine ⟨?_, ?_, ?_, ?_⟩
  · rw [habort, hrec2]
    rfl
  · rw [hstart2]
  · rw [hstart2]
    exact UploadStore.keys_updateUpload _ _ _ _
  · rw [hstart2]
    have := UploadStore.getUpload_updateUpload_self
      (TusUpload.abort (TusUpload.start s0 store0 env1).2.1
        (TusUpload.start s0 store0 env1).2.2.1 false now1).1 h.id
      { status := some Status.uploading } env2.now _ (by rw [habort]; exact hrec2)
    rw [this]
    rfl

/-- Witness for C9 on the concrete fixtures: record `u1` is `failed`
after abort and `uploading` after the renewed start, with the same
session object and store keys. -/
theorem start_after_abort_reuses_witness :
    cS0.nativeUpload = none ∧
    (UploadStore.getUpload
        (TusUpload.abort (TusUpload.start cS0 [] cEnvOk).2.1
          (TusUpload.start cS0 [] cEnvOk).2.2.1 false 7).1 "u1").map
      UploadMetadata.status = some Status.failed ∧
    (TusUpload.start (TusUpload.start cS0 [] cEnvOk).2.1
        (TusUpload.abort (TusUpload.start cS0 [] cEnvOk).2.1
          (TusUpload.start cS0 [] cEnvOk).2.2.1 false 7).1 cEnvOk).2.1 =
      (TusUpload.start cS0 [] cEnvOk).2.1 ∧
    (UploadStore.getUpload
        (TusUpload.start (TusUpload.start cS0 [] cEnvOk).2.1
          (TusUpload.abort (TusUpload.start cS0 [] cEnvOk).2.1
            (TusUpload.start cS0 [] cEnvOk).2.2.1 false 7).1 cEnvOk).2.2.1
        "u1").map UploadMetadata.status = some Status.uploading := by
  have hmain := start_after_abort_reuses cS0 [] cEnvOk cEnvOk cHandle 7
    rfl rfl rfl rfl
  exact ⟨rfl, hmain.1, hmain.2.1, hmain.2.2.2⟩

/-- C1 counterexample: two failure paths violate the claim as stated.
When `createUpload` itself throws inside `start()`, the call rejects and
one `error` event fires, but the `if (this.nativeUpload)` guard in
`handleError` skips the store write — the final store is still empty, so
no record carries status `failed`. And `resume()` on a never-started
session rejects with the not-initialized error while delivering zero
`error` events. -/
theorem upload_failure_cex :
    TusUpload.start cS0 [] cEnvCreateFail =
      (Except.error UploadCallError.transportCreation, cS0, [], [Event.error]) ∧
    TusUpload.resume cS0 [] false 3 =
      (Except.error UploadCallError.notStarted, [], []) := by
  exact ⟨rfl, rfl⟩

/-- C1 (amended): once the session holds a transport handle whose record
is in the store, every failure — `start()` rejecting from the native
start, `resume()` rejecting from the native resume, or a transport error
callback — delivers exactly one `error` event and writes status `failed`
into that record. (When transport creation itself fails there is no
record: exactly one `error` event fires and the store is untouched; a
`pause()`/`resume()` before `start()` rejects with the not-initialized
error and delivers no `error` event.) -/
theorem failure_marks_failed_once (s : Session) (store : Store)
    (env : StartEnv) (h : NativeHandle) (rec : UploadMetadata) (now : Nat)
    (hs : s.nativeUpload = some h)
    (hrec : UploadStore.getUpload store h.id = some rec)
    (hns : env.nativeStartThrows = true) :
    (TusUpload.start s store env).1 = Except.error UploadCallError.nativeStart ∧
    (TusUpload.start s store env).2.2.2 = [Event.error] ∧
    (UploadStore.getUpload (TusUpload.start s store env).2.2.1 h.id).map
      UploadMetadata.status = some Status.failed ∧
    (TusUpload.resume s store true now).1 =
      Except.error UploadCallError.nativeResume ∧
    (TusUpload.resume s store true now).2.2 = [Event.error] ∧
    (UploadStore.getUpload (TusUpload.resume s store true now).2.1 h.id).map
      UploadMetadata.status = some Status.failed ∧
    (TusUpload.onErrorCb s store now).2 = [Event.error] ∧
    (UploadStore.getUpload (TusUpload.onErrorCb s store now).1 h.id).map
      UploadMetadata.status = some Status.failed := by
  have hstart := TusUpload.start_reuse_nativeFail s store env h hs hns
  have hrec1 := UploadStore.getUpload_updateUpload_self store h.id
    { status := some Status.uploading } env.now _ hrec
  have hrec1f := UploadStore.getUpload_updateUpload_self
    (UploadStore.updateUpload store h.id
      { status := some Status.uploading } env.now) h.id
    { status := some Status.failed } env.now _ hrec1
  have hrecn := UploadStore.getUpload_updateUpload_self store h.id
    { status := some Status.uploading } now _ hrec
  have hrecnf := UploadStore.getUpload_updateUpload_self
    (UploadStore.updateUpload store h.id
      { status := some Status.uploading } now) h.id
    { status := some Status.failed } now _ hrecn
  have hresume : TusUpload.resume s store true now =
      (Except.error UploadCallError.nativeResume,
       UploadStore.updateUpload
         (UploadStore.updateUpload store h.id
           { status := some Status.uploading } now) h.id
         { status := some Status.failed } now,
       [Event.error]) := by
    simp [TusUpload.resume, TusUpload.handleError, hs]
  have herrcb : TusUpload.onErrorCb s store now =
      (UploadStore.updateUpload store h.id
        { status := some Status.failed } now, [Event.error]) := by
    simp [TusUpload.onErrorCb, TusUpload.handleError, hs]
  have hrecf := UploadStore.getUpload_updateUpload_self store h.id
    { status := some Status.failed } now _ hrec
  refine ⟨?_, ?_, ?_, ?_, ?_, ?_, ?_, ?_⟩
  · rw [hstart]
  · rw [hstart]
  · rw [hstart]
    simp only
    rw [hrec1f]
    rfl
  · rw [hresume]
  · rw [hresume]
  · rw [hresume]
    simp only
    rw [hrecnf]
    rfl
  · rw [herrcb]
  · rw [herrcb]
    simp only
    rw [hrecf]
    rfl

/-- Witness for C1 (amended) on the started fixture session: each of the
three failure paths yields exactly one `error` event and a `failed`
record for `u1`. -/
theorem failure_marks_failed_once_witness :
    cS1.nativeUpload = some cHandle ∧
    (TusUpload.start cS1 cStore1 cEnvStartFail).2.2.2 = [Event.error] ∧
    (UploadStore.getUpload (TusUpload.start cS1 cStore1 cEnvStartFail).2.2.1
      "u1").map UploadMetadata.status = some Status.failed ∧
    (TusUpload.resume cS1 cStore1 true 3).2.2 = [Event.error] ∧
    (UploadStore.getUpload (TusUpload.resume cS1 cStore1 true 3).2.1 "u1").map
      UploadMetadata.status = some Status.failed ∧
    (TusUpload.onErrorCb cS1 cStore1 3).2 = [Event.error] ∧
    (UploadStore.getUpload (TusUpload.onErrorCb cS1 cStore1 3).1 "u1").map
      UploadMetadata.status = some Status.failed := by
  have hmain := failure_marks_failed_once cS1 cStore1 cEnvStartFail cHandle
    cRec1 3 (by decide) (by decide) rfl
  exact ⟨by decide, hmain.2.1, hmain.2.2.1, hmain.2.2.2.2.1,
    hmain.2.2.2.2.2.1, hmain.2.2.2.2.2.2.1, hmain.2.2.2.2.2.2.2⟩

/-- The offset persisted after each progress callback is exactly the
delivered `bytesUploaded` value of that callback. -/
theorem offsetsAfter_eq (s : Session) (h : NativeHandle) (store : Store)
    (rec : UploadMetadata) (bs : List Nat) (total now : Nat)
    (hs : s.nativeUpload = some h)
    (hrec : UploadStore.getUpload store h.id = some rec) :
    offsetsAfter s h store bs total now = bs := by
  induction bs generalizing store rec with
  | nil => rfl
  | cons b rest ih =>
    unfold offsetsAfter
    have hcb : TusUpload.onProgressCb s store b total now =
        (UploadStore.updateUpload store h.id { offset := some b } now,
         [Event.progress b total]) := by
      simp [TusUpload.onProgressCb, hs]
    rw [hcb]
    simp only
    have hrec1 := UploadStore.getUpload_updateUpload_self store h.id
      { offset := some b } now _ hrec
    rw [hrec1, ih (UploadStore.updateUpload store h.id { offset := some b } now)
      (applyUpdates rec { offset := some b } now) hrec1]
    rfl

/-- C2 counterexample: the progress callback persists the delivered
value unchecked. Reached through the public flow (a successful `start()`
followed by three transport progress callbacks), the persisted offset of
record `u1` goes 700, then down to 500, then to 1500 — exceeding the
record's `uploadSize` of 1000 — so the persisted offset sequence is
neither non-decreasing nor bounded by `uploadSize`. -/
theorem progress_not_monotone_cex :
    (UploadStore.getUpload cProg1 "u1").map UploadMetadata.offset = some 700 ∧
    (UploadStore.getUpload cProg2 "u1").map UploadMetadata.offset = some 500 ∧
    ¬ (700 : Nat) ≤ 500 ∧
    (UploadStore.getUpload cProg3 "u1").map UploadMetadata.offset = some 1500 ∧
    (UploadStore.getUpload cProg3 "u1").map UploadMetadata.uploadSize = some 1000 ∧
    ¬ (1500 : Nat) ≤ 1000 :=
  ⟨by decide, by decide, by decide, by decide, by decide, by decide⟩

/-- C2 (amended): each progress callback writes exactly the delivered
`bytesUploaded` into the record — the session neither clamps nor filters
— so the persisted offsets are non-decreasing and bounded by
`uploadSize` precisely when the transport-delivered values are. -/
theorem progress_offsets_follow_delivery (s : Session) (h : NativeHandle)
    (store : Store) (rec : UploadMetadata) (bs : List Nat) (total now : Nat)
    (hs : s.nativeUpload = some h)
    (hrec : UploadStore.getUpload store h.id = some rec) :
    offsetsAfter s h store bs total now = bs ∧
    (List.Chain' (fun a b => a ≤ b) bs →
      List.Chain' (fun a b => a ≤ b) (offsetsAfter s h store bs total now)) ∧
    ((∀ b ∈ bs, b ≤ rec.uploadSize) →
      ∀ o ∈ offsetsAfter s h store bs total now, o ≤ rec.uploadSize) := by
  have he := offsetsAfter_eq s h store rec bs total now hs hrec
  refine ⟨he, fun hch => ?_, fun hb => ?_⟩
  · rw [he]
    exact hch
  · rw [he]
    exact hb

/-- Witness for C2 (amended): a monotone bounded delivery on the started
fixture produces the identical persisted offset sequence. -/
theorem progress_offsets_follow_delivery_witness :
    cS1.nativeUpload = some cHandle ∧
    UploadStore.getUpload cStore1 "u1" = some cRec1 ∧
    offsetsAfter cS1 cHandle cStore1 [100, 400, 1000] 1000 2 = [100, 400, 1000] ∧
    List.Chain' (fun a b => a ≤ b)
      (offsetsAfter cS1 cHandle cStore1 [100, 400, 1000] 1000 2) ∧
    (400 : Nat) ≤ cRec1.uploadSize := by
  have hmain := progress_offsets_follow_delivery cS1 cHandle cStore1 cRec1
    [100, 400, 1000] 1000 2 (by decide) (by decide)
  refine ⟨by decide, by decide, hmain.1,
    hmain.2.1 (by norm_num [List.chain'_cons]), ?_⟩
  refine hmain.2.2 (by decide) 400 ?_
  rw [hmain.1]
  decide

/-- C3 counterexample: reachable through the public flow — a successful
`start()` and then the transport success callback firing while the
transport handle's url is null (`cSuccess`) — the store holds a record
with status `completed` and a null url, because `onSuccess` writes
`url: this.nativeUpload?.url || null` without any non-null check. -/
theorem completed_null_url_cex :
    (UploadStore.getUpload cSuccess.2.1 "u1").map UploadMetadata.status =
      some Status.completed ∧
    (UploadStore.getUpload cSuccess.2.1 "u1").map UploadMetadata.url =
      some none :=
  ⟨by decide, by decide⟩

/-- C3 (amended): the success callback writes status `completed` together
with the transport-reported url coerced by the JS `|| null` (null or the
empty string become null); hence a completed record carries a non-null
url exactly when the transport reports a non-empty url at success time. -/
theorem onSuccess_completed_with_reported_url (s : Session) (h : NativeHandle)
    (store : Store) (rec : UploadMetadata) (reportedUrl : Option String)
    (now : Nat) (hs : s.nativeUpload = some h)
    (hrec : UploadStore.getUpload store h.id = some rec) :
    (UploadStore.getUpload (TusUpload.onSuccessCb s store reportedUrl now).2.1
      h.id).map UploadMetadata.status = some Status.completed ∧
    (UploadStore.getUpload (TusUpload.onSuccessCb s store reportedUrl now).2.1
      h.id).map UploadMetadata.url = some (jsOrNull reportedUrl) ∧
    (TusUpload.onSuccessCb s store reportedUrl now).2.2 = [Event.success] ∧
    (TusUpload.onSuccessCb s store reportedUrl now).1.url = jsOrNull reportedUrl := by
  have hcb : TusUpload.onSuccessCb s store reportedUrl now =
      ({ s with url := jsOrNull reportedUrl },
       UploadStore.updateUpload store h.id
         { status := some Status.completed, url := some (jsOrNull reportedUrl) } now,
       [Event.success]) := by
    simp [TusUpload.onSuccessCb, hs]
  have hrec1 := UploadStore.getUpload_updateUpload_self store h.id
    { status := some Status.completed, url := some (jsOrNull reportedUrl) } now _ hrec
  refine ⟨?_, ?_, ?_, ?_⟩
  · rw [hcb]
    simp only
    rw [hrec1]
    rfl
  · rw [hcb]
    simp only
    rw [hrec1]
    rfl
  · rw [hcb]
  · rw [hcb]

/-- Witness for C3 (amended): a success callback reporting a non-empty
url leaves record `u1` completed with exactly that url. -/
theorem onSuccess_completed_with_reported_url_witness :
    cS1.nativeUpload = some cHandle ∧
    (UploadStore.getUpload (TusUpload.onSuccessCb cS1 cStore1
      (some "https://srv/files/u1") 5).2.1 "u1").map UploadMetadata.status =
      some Status.completed ∧
    (UploadStore.getUpload (TusUpload.onSuccessCb cS1 cStore1
      (some "https://srv/files/u1") 5).2.1 "u1").map UploadMetadata.url =
      some (jsOrNull (some "https://srv/files/u1")) ∧
    jsOrNull (some "https://srv/files/u1") = some "https://srv/files/u1" := by
  have hmain := onSuccess_completed_with_reported_url cS1 cHandle cStore1 cRec1
    (some "https://srv/files/u1") 5 (by decide) (by decide)
  exact ⟨by decide, hmain.1, hmain.2.1, by decide⟩

/-- On a list whose image under `f` has no duplicates, entries at
distinct positions have distinct images. -/
theorem nodup_map_getElem_ne {α β : Type} (f : α → β) (l : List α)
    (hnd : (l.map f).Nodup) (j k : Nat) (a b : α)
    (hj : l[j]? = some a) (hk : l[k]? = some b) (hjk : j ≠ k) :
    f a ≠ f b := by
  intro he
  have hj2 : (l.map f)[j]? = some (f a) := by
    rw [List.getElem?_map, hj]
    rfl
  have hk2 : (l.map f)[k]? = some (f b) := by
    rw [List.getElem?_map, hk]
    rfl
  have hlen : j < (l.map f).length := by
    rw [List.getElem?_eq_some_iff] at hj2
    exact hj2.1
  exact hjk (List.getElem?_inj hlen hnd (hj2.trans (by rw [he, hk2])))

/-- In a well-keyed store with unique keys, each stored value is found
under its own id. -/
theorem getUpload_of_wellKeyed (store : Store)
    (hwk : ∀ p ∈ store, p.2.id = p.1) (hnd : (store.map Prod.fst).Nodup)
    (m : UploadMetadata) (hm : m ∈ store.map Prod.snd) :
    UploadStore.getUpload store m.id = some m := by
  induction store with
  | nil => simp at hm
  | cons p rest ih =>
    rw [UploadStore.getUpload_cons]
    simp only [List.map_cons, List.nodup_cons] at hnd
    rcases (by simpa using hm : m = p.2 ∨ m ∈ rest.map Prod.snd) with hm1 | hm2
    · have hid : p.2.id = p.1 := hwk p (List.mem_cons_self p rest)
      rw [if_pos (by rw [hm1, hid]), hm1]
    · have hmemkey : m.id ∈ rest.map Prod.fst := by
        obtain ⟨q, hq, hq2⟩ := List.mem_map.mp hm2
        have := hwk q (List.mem_cons_of_mem p hq)
        rw [← hq2, this]
        exact List.mem_map_of_mem Prod.fst hq
      have hne : ¬ p.1 = m.id := fun h => hnd.1 (h ▸ hmemkey)
      rw [if_neg hne]
      exact ih (fun q hq => hwk q (List.mem_cons_of_mem p hq)) hnd.2 hm2

/-- In a well-keyed store with unique keys, the ids of the active
records are pairwise distinct. -/
theorem active_ids_nodup (store : Store)
    (hwk : ∀ p ∈ store, p.2.id = p.1) (hnd : (store.map Prod.fst).Nodup) :
    ((UploadStore.getActiveUploads store).map UploadMetadata.id).Nodup := by
  have hvals : (store.map Prod.snd).map UploadMetadata.id = store.map Prod.fst := by
    rw [List.map_map]
    exact List.map_congr_left hwk
  have hsub : List.Sublist
      ((UploadStore.getActiveUploads store).map UploadMetadata.id)
      ((store.map Prod.snd).map UploadMetadata.id) :=
    (List.filter_sublist (store.map Prod.snd)).map UploadMetadata.id
  rw [hvals] at hsub
  exact hnd.sublist hsub

/-- JS truthiness agrees with non-nullness on urls that are not the
empty string. -/
theorem jsTruthy_eq_of_ne_empty (u : Option String) (h : u ≠ some "") :
    jsTruthy u = decide (u ≠ none) := by
  cases u with
  | none => rfl
  | some str =>
    have hne : ¬ (str = "") := fun he => h (by rw [he])
    simp [jsTruthy, hne]

/-- C4: bulk resume iterates over exactly the active-records snapshot,
calls `start()` exactly for those records whose url is non-null (the
trace lists them in order), and a record whose `start()` attempt fails is
left marked `failed` in the store while every other record is still
processed. The whole coordinator body is wrapped in a swallowing
try/catch, which the embedding reflects by `resumePendingUploads` being a
total function. Hypotheses: store keys are unique, records are stored
under their own id, no persisted url is the empty string (all three hold
for every store the session layer builds), and `createUpload` hands out
fresh handle ids. -/
theorem resumePendingUploads_spec (store : Store) (envs : Nat → StartEnv)
    (hnd : (store.map Prod.fst).Nodup)
    (hwk : ∀ p ∈ store, p.2.id = p.1)
    (hurl : ∀ p ∈ store, p.2.url ≠ some "")
    (hfresh : ∀ j hh, (envs j).createOutcome = some hh →
      ¬ hh.id ∈ store.map Prod.fst) :
    (BackgroundUploadManager.resumePendingUploads store envs).2 =
      ((UploadStore.getActiveUploads store).filter
        (fun m => decide (m.url ≠ none))).map
        (fun m => BackgroundUploadManager.Trace.startCalled m.id) ∧
    (∀ j m, (UploadStore.getActiveUploads store)[j]? = some m →
      m.url ≠ none → (envs j).fails →
      (UploadStore.getUpload
          (BackgroundUploadManager.resumePendingUploads store envs).1 m.id).map
        UploadMetadata.status = some Status.failed) := by
  constructor
  · unfold BackgroundUploadManager.resumePendingUploads
    rw [BackgroundUploadManager.resumeLoop_trace]
    have hcongr : (UploadStore.getActiveUploads store).filter
        (fun m => jsTruthy m.url) =
        (UploadStore.getActiveUploads store).filter
          (fun m => decide (m.url ≠ none)) := by
      apply List.filter_congr
      intro m hm
      have hmv : m ∈ store.map Prod.snd := List.mem_of_mem_filter hm
      obtain ⟨p, hp, hpm⟩ := List.mem_map.mp hmv
      exact jsTruthy_eq_of_ne_empty m.url (hpm ▸ hurl p hp)
    rw [hcongr]
  · intro j m hj hmurl hf
    have hma : m ∈ UploadStore.getActiveUploads store := List.getElem?_mem hj
    have hmv : m ∈ store.map Prod.snd := List.mem_of_mem_filter hma
    obtain ⟨p, hp, hpm⟩ := List.mem_map.mp hmv
    have hpres : UploadStore.getUpload store m.id = some m :=
      getUpload_of_wellKeyed store hwk hnd m hmv
    have hmidkey : m.id ∈ store.map Prod.fst := by
      have := hwk p hp
      rw [← hpm, this]
      exact List.mem_map_of_mem Prod.fst hp
    have hhandles : ∀ jj hh, (envs jj).createOutcome = some hh →
        hh.id ≠ m.id := by
      intro jj hh hc he
      exact hfresh jj hh hc (he ▸ hmidkey)
    have ht : jsTruthy m.url = true := by
      rw [jsTruthy_eq_of_ne_empty m.url (hpm ▸ hurl p hp)]
      exact decide_eq_true hmurl
    have hne : ∀ jj mm, (UploadStore.getActiveUploads store)[jj]? = some mm →
        jj ≠ j → mm.id ≠ m.id := by
      intro jj mm hjj hne2
      exact nodup_map_getElem_ne UploadMetadata.id
        (UploadStore.getActiveUploads store) (active_ids_nodup store hwk hnd)
        jj j mm m hjj hj hne2
    have hf0 : (envs (0 + j)).fails := by
      rw [Nat.zero_add]
      exact hf
    exact BackgroundUploadManager.resumeLoop_marks_failed
      (UploadStore.getActiveUploads store) envs 0 store j m hj hne hhandles
      (by rw [hpres]; rfl) ht hf0

/-- Witness for C4 on `cStoreABC` (active records `a` and `b`, completed
record `c`) with `cEnvsAB` (the first attempt fails at `createUpload`,
the second succeeds): start is called for both active records, `a` ends
marked `failed`, and `b` is still processed — its `start()` ran, which
created the fresh-id record `h1` in status `uploading` (the reconstructed
session gets a new transport id, so the old record `b` itself is left as
it was). -/
theorem resumePendingUploads_spec_witness :
    (cStoreABC.map Prod.fst).Nodup ∧
    (BackgroundUploadManager.resumePendingUploads cStoreABC cEnvsAB).2 =
      [BackgroundUploadManager.Trace.startCalled "a",
       BackgroundUploadManager.Trace.startCalled "b"] ∧
    (UploadStore.getUpload
        (BackgroundUploadManager.resumePendingUploads cStoreABC cEnvsAB).1
        "a").map UploadMetadata.status = some Status.failed ∧
    (UploadStore.getUpload
        (BackgroundUploadManager.resumePendingUploads cStoreABC cEnvsAB).1
        "h1").map UploadMetadata.status = some Status.uploading ∧
    (UploadStore.getUpload
        (BackgroundUploadManager.resumePendingUploads cStoreABC cEnvsAB).1
        "b").map UploadMetadata.status = some Status.pending := by
  have hfresh : ∀ j hh, (cEnvsAB j).createOutcome = some hh →
      ¬ hh.id ∈ cStoreABC.map Prod.fst := by
    intro j hh hc hmem
    by_cases hje : j = 0
    · rw [hje] at hc
      simp [cEnvsAB] at hc
    · rw [show cEnvsAB j = cEnvsAB 1 from by simp [cEnvsAB, hje]] at hc
      simp only [cEnvsAB, if_neg one_ne_zero, Option.some.injEq] at hc
      rw [← hc] at hmem
      exact absurd hmem (by decide)
  have hmain := resumePendingUploads_spec cStoreABC cEnvsAB
    (by decide) (by decide) (by decide) hfresh
  have hfa := hmain.2 0 cRecA (by decide) (by decide) (by decide)
  refine ⟨by decide, ?_, ?_, by decide, by decide⟩
  · rw [hmain.1]
    decide
  · exact hfa

end Tus
